import Mathlib

/-!
Verification of the elemental-cli partition-layout engine and
deployment/upgrade state machine, shallowly embedded from the Go sources.

Machine integers follow Go unsigned 64-bit semantics: arithmetic is carried
out on `Nat` with explicit reduction modulo `2 ^ 64` wherever the Go code
computes on `uint`.
-/

namespace Partitioner

/-- `2 ^ 64`, the modulus of Go `uint` arithmetic on a 64-bit target. -/
def w64 : Nat := 18446744073709551616

/-- Go unsigned subtraction `a - b` (wraps modulo `2 ^ 64`). -/
def gosub (a b : Nat) : Nat := (a % w64 + (w64 - b % w64)) % w64

/-- Go unsigned addition `a + b` (wraps modulo `2 ^ 64`). -/
def goadd (a b : Nat) : Nat := (a + b) % w64

/-- Go unsigned multiplication `a * b` (wraps modulo `2 ^ 64`). -/
def gomul (a b : Nat) : Nat := (a * b) % w64

/-- Partition record as parsed from the partition-table tool
(`partitioner.Partition`): sector-precise start and size. -/
structure Partition where
  number : Nat
  startS : Nat
  sizeS : Nat
  pLabel : String
  fileSystem : String
deriving Repr, DecidableEq

/-- Disk layout model (`partitioner.Disk`): cached sector size, last usable
sector, partition-table label and ordered partition list. -/
structure Disk where
  device : String
  sectorS : Nat
  lastS : Nat
  parts : List Partition
  label : String
deriving Repr, DecidableEq

/-- `partitioner.MiBToSectors`: `size * 1048576 / sectorSize` in Go `uint`
arithmetic. -/
def MiBToSectors (size sectorSize : Nat) : Nat :=
  gomul size 1048576 / sectorSize

/-- `Disk.computeFreeSpace`: free sectors behind the last partition, or behind
the 1 MiB alignment offset when the disk has no partitions. -/
def Disk.computeFreeSpace (dev : Disk) : Nat :=
  match dev.parts.getLast? with
  | some lastPart => gosub dev.lastS (gosub (goadd lastPart.startS lastPart.sizeS) 1)
  | none => gosub dev.lastS (gosub (1 * 1024 * 1024 / dev.sectorS) 1)

/-- `Disk.computeFreeSpaceWithoutLast`: free sectors ignoring the last
partition (used when expanding it). -/
def Disk.computeFreeSpaceWithoutLast (dev : Disk) : Nat :=
  match dev.parts.dropLast.getLast? with
  | some part => gosub dev.lastS (gosub (goadd part.startS part.sizeS) 1)
  | none => gosub dev.lastS (gosub (1024 * 1024 / dev.sectorS) 1)

/-- A queued partition-table tool operation (the `PartedCall` write queue). -/
inductive PartedOp where
  | create (p : Partition)
  | setFlag (num : Nat) (flag : String) (active : Bool)
  | del (num : Nat)
deriving Repr, DecidableEq

/-- Environment for `Disk.AddPartition`: outcomes of the collaborator calls
(the partition-table tool invocation and the reload that re-parses the
device). -/
structure AddEnv where
  reload : Except String Disk
  writeOk : Bool
  reloadAfter : Except String Disk
deriving Repr

/-- `Disk.AddPartition`. Returns the action result together with the list of
batched write commits flushed to the partition-table tool (one entry per
`WriteChanges` invocation, empty when no commit was issued). -/
def Disk.addPartition (dev : Disk) (env : AddEnv) (size : Nat)
    (fileSystem pLabel : String) (flags : List String) :
    Except String (Disk × Nat) × List (List PartedOp) :=
  let devE : Except String Disk := if dev.sectorS = 0 then env.reload else .ok dev
  match devE with
  | .error e => (.error e, [])
  | .ok dev =>
    let pn : Nat × Nat :=
      match dev.parts.getLast? with
      | some lastP => (lastP.number, goadd lastP.startS lastP.sizeS)
      | none => (0, 1024 * 1024 / dev.sectorS)
    let sizeSec := MiBToSectors size dev.sectorS
    let freeS := dev.computeFreeSpace
    if sizeSec > freeS then
      (.error ("not enough free space in disk. Required: " ++ toString sizeSec ++
        " sectors; Available " ++ toString freeS ++ " sectors"), [])
    else
      let partNum := pn.1 + 1
      let part : Partition :=
        { number := partNum, startS := pn.2, sizeS := sizeSec,
          pLabel := pLabel, fileSystem := fileSystem }
      let ops := PartedOp.create part ::
        flags.map (fun f => PartedOp.setFlag partNum f true)
      if env.writeOk then
        match env.reloadAfter with
        | .error e => (.error e, [ops])
        | .ok dev2 => (.ok (dev2, partNum), [ops])
      else (.error "write changes failed", [ops])

/-- Environment for `Disk.ExpandLastPartition`: collaborator outcomes for the
reloads, the write commit, the partition-device lookup and the filesystem
growth commands. -/
structure ExpandEnv where
  reload : Except String Disk
  writeOk : Bool
  reloadAfter : Except String Disk
  findDev : Except String String
  fsType : String
  e2fsckOk : Bool
  resize2fsOk : Bool
  tmpDirOk : Bool
  mountOk : Bool
  growfsOk : Bool
  umountAfterGrowFailOk : Bool
  umountOk : Bool
deriving Repr

/-- `Disk.expandFilesystem`: grows the filesystem on the given device,
ext2/3/4 offline, xfs through a temporary mount. -/
def Disk.expandFilesystem (env : ExpandEnv) (device : String) :
    Except String String :=
  if env.fsType = "ext2" ∨ env.fsType = "ext3" ∨ env.fsType = "ext4" then
    if env.e2fsckOk then
      if env.resize2fsOk then .ok "" else .error "resize2fs failed"
    else .error "e2fsck failed"
  else if env.fsType = "xfs" then
    if env.tmpDirOk then
      if env.mountOk then
        if env.growfsOk then
          if env.umountOk then .ok "" else .error "umount failed"
        else
          if env.umountAfterGrowFailOk then .error "xfs growfs failed"
          else .error "umount failed"
      else .error "mount failed"
    else .error "tmpdir failed"
  else .error ("could not find filesystem for " ++ device ++
    ", not resizing the filesystem")

/-- `Disk.ExpandLastPartition`. Returns the action result together with the
batched write commits flushed to the partition-table tool. -/
def Disk.expandLastPartition (dev : Disk) (env : ExpandEnv) (size : Nat) :
    Except String String × List (List PartedOp) :=
  let devE : Except String Disk := if dev.sectorS = 0 then env.reload else .ok dev
  match devE with
  | .error e => (.error e, [])
  | .ok dev =>
    match dev.parts.getLast? with
    | none => (.error "There is no partition to expand", [])
    | some part =>
      let checked : Except String Nat :=
        if size > 0 then
          let sizeSec := MiBToSectors size dev.sectorS
          if sizeSec < part.sizeS then
            .error "Layout plugin can only expand a partition, not shrink it"
          else if sizeSec > dev.computeFreeSpaceWithoutLast then
            .error ("not enough free space for to expand last partition up to " ++
              toString sizeSec ++ " sectors")
          else .ok sizeSec
        else .ok size
      match checked with
      | .error e => (.error e, [])
      | .ok newSize =>
        let part := { part with sizeS := newSize }
        let ops := [PartedOp.del part.number, PartedOp.create part]
        if env.writeOk then
          match env.reloadAfter with
          | .error e => (.error e, [ops])
          | .ok _ =>
            match env.findDev with
            | .error e => (.error e, [ops])
            | .ok pDev => (Disk.expandFilesystem env pDev, [ops])
        else (.error "write changes failed", [ops])

theorem gosub_eq_sub {a b : Nat} (hb : b ≤ a) (ha : a < w64) :
    gosub a b = a - b := by
  unfold gosub w64 at *
  omega

theorem goadd_eq_add {a b : Nat} (h : a + b < w64) : goadd a b = a + b := by
  unfold goadd w64 at *
  omega

/-- C4: free-space computation. For a loaded disk whose sector values fit in
Go `uint` range and whose layout is well formed (the last partition ends at
or before the last usable sector), the computed free space is
`last_sector - (last_partition.start + last_partition.size - 1)` when the
partition list is non-empty, and `last_sector - (1MiB / sector_size - 1)`
when it is empty. -/
theorem c4_computeFreeSpace_spec (dev : Disk) (hlast : dev.lastS < w64) :
    (∀ p, dev.parts.getLast? = some p → 0 < p.startS + p.sizeS →
      p.startS + p.sizeS < w64 → p.startS + p.sizeS - 1 ≤ dev.lastS →
      dev.computeFreeSpace = dev.lastS - (p.startS + p.sizeS - 1)) ∧
    (dev.parts = [] → 0 < dev.sectorS → dev.sectorS ≤ 1048576 →
      1048576 / dev.sectorS - 1 ≤ dev.lastS →
      dev.computeFreeSpace = dev.lastS - (1048576 / dev.sectorS - 1)) := by
  constructor
  · intro p hp hpos hsum hle
    have hps : goadd p.startS p.sizeS = p.startS + p.sizeS := goadd_eq_add hsum
    have h1 : gosub (p.startS + p.sizeS) 1 = p.startS + p.sizeS - 1 :=
      gosub_eq_sub hpos hsum
    unfold Disk.computeFreeSpace
    rw [hp]
    simp only [hps, h1]
    exact gosub_eq_sub hle hlast
  · intro hnil hpos hbound hle
    have hdiv : 0 < 1048576 / dev.sectorS := Nat.div_pos hbound hpos
    have hdivlt : 1 * 1024 * 1024 / dev.sectorS < w64 := by
      have : 1 * 1024 * 1024 / dev.sectorS ≤ 1 * 1024 * 1024 :=
        Nat.div_le_self _ _
      unfold w64
      omega
    unfold Disk.computeFreeSpace
    rw [hnil]
    simp only [List.getLast?_nil]
    have h1 : gosub (1 * 1024 * 1024 / dev.sectorS) 1 =
        1 * 1024 * 1024 / dev.sectorS - 1 := by
      refine gosub_eq_sub ?_ hdivlt
      simpa using hdiv
    rw [h1]
    have h2 : (1 * 1024 * 1024 : Nat) = 1048576 := by norm_num
    rw [h2] at *
    exact gosub_eq_sub hle hlast

/-- Witness for C4 at a concrete loaded disk (sector size 512, one partition
starting at sector 2048 of 204800 sectors, last sector 50593792). -/
theorem c4_computeFreeSpace_spec_witness :
    ({ device := "/dev/sda", sectorS := 512, lastS := 50593792,
       parts := [{ number := 1, startS := 2048, sizeS := 204800,
                   pLabel := "p1", fileSystem := "ext4" }],
       label := "gpt" } : Disk).computeFreeSpace =
      50593792 - (2048 + 204800 - 1) := by
  have h := (c4_computeFreeSpace_spec
    { device := "/dev/sda", sectorS := 512, lastS := 50593792,
      parts := [{ number := 1, startS := 2048, sizeS := 204800,
                  pLabel := "p1", fileSystem := "ext4" }],
      label := "gpt" } (by decide)).1
    { number := 1, startS := 2048, sizeS := 204800,
      pLabel := "p1", fileSystem := "ext4" }
    (by rfl) (by decide) (by decide) (by decide)
  simpa using h

/-- C5: `AddPartition` rejects a request whose sector count exceeds the free
space with an error and flushes no commit to the partition-table tool, so the
table is not mutated at all. Stated for a loaded disk (cached sector size is
non-zero, as after `Reload`). -/
theorem c5_addPartition_rejects_without_commit (dev : Disk) (env : AddEnv)
    (size : Nat) (fileSystem pLabel : String) (flags : List String)
    (hloaded : dev.sectorS ≠ 0)
    (hover : MiBToSectors size dev.sectorS > dev.computeFreeSpace) :
    dev.addPartition env size fileSystem pLabel flags =
      (.error ("not enough free space in disk. Required: " ++
        toString (MiBToSectors size dev.sectorS) ++ " sectors; Available " ++
        toString dev.computeFreeSpace ++ " sectors"), []) := by
  unfold Disk.addPartition
  simp [hloaded, hover]

/-- Witness for C5: requesting 1024 MiB on a 512-byte-sector disk with far
less free space returns the error and an empty commit list. -/
theorem c5_addPartition_rejects_without_commit_witness :
    (({ device := "/dev/sda", sectorS := 512, lastS := 50593792,
        parts := [{ number := 1, startS := 2048, sizeS := 50570000,
                    pLabel := "p1", fileSystem := "ext4" }],
        label := "gpt" } : Disk).addPartition
      { reload := .error "unused", writeOk := true, reloadAfter := .error "unused" }
      1024 "ext4" "newpart" []).2 = [] := by
  rw [c5_addPartition_rejects_without_commit _ _ _ _ _ _ (by decide) (by decide)]

/-- C7: `ExpandLastPartition` on a loaded disk with at least one partition,
called with a non-zero target whose sector count is below the current size of
the last partition, fails with the shrink-rejection error and flushes no
commit to the partition-table tool (no delete, no recreate, no commit). -/
theorem c7_expandLastPartition_no_shrink (dev : Disk) (env : ExpandEnv)
    (size : Nat) (part : Partition)
    (hloaded : dev.sectorS ≠ 0)
    (hlast : dev.parts.getLast? = some part)
    (hpos : 0 < size)
    (hshrink : MiBToSectors size dev.sectorS < part.sizeS) :
    dev.expandLastPartition env size =
      (.error "Layout plugin can only expand a partition, not shrink it", []) := by
  unfold Disk.expandLastPartition
  simp [hloaded, hlast, hpos, hshrink, Nat.not_le.mpr hshrink]

/-- Witness for C7: shrinking a 1000 MiB partition to 1 MiB is rejected with
no commit issued. -/
theorem c7_expandLastPartition_no_shrink_witness :
    (({ device := "/dev/sda", sectorS := 512, lastS := 50593792,
        parts := [{ number := 1, startS := 2048, sizeS := 2048000,
                    pLabel := "p1", fileSystem := "ext4" }],
        label := "gpt" } : Disk).expandLastPartition
      { reload := .error "unused", writeOk := true,
        reloadAfter := .error "unused", findDev := .error "unused",
        fsType := "ext4", e2fsckOk := true, resize2fsOk := true,
        tmpDirOk := true, mountOk := true, growfsOk := true,
        umountAfterGrowFailOk := true, umountOk := true } 1).2 = [] := by
  rw [c7_expandLastPartition_no_shrink _ _ _
    { number := 1, startS := 2048, sizeS := 2048000,
      pLabel := "p1", fileSystem := "ext4" }
    (by decide) (by rfl) (by decide) (by decide)]

end Partitioner

namespace Elemental

/-- Deployable filesystem image value object (`v1.Image`). -/
structure Image where
  file : String
  label : String
  size : Nat
  fs : String
  mountPoint : String
  loopDevice : String
deriving Repr, DecidableEq

/-- Mount/loop-manager effects issued against the OS. -/
inductive MEvent where
  | mkdirAll (path : String)
  | losetupAttach (file : String)
  | mount (dev mnt : String)
  | unmount (mnt : String)
  | losetupDetach (dev : String)
deriving Repr, DecidableEq

/-- Environment for `Elemental.MountImage` / `Elemental.UnmountImage`:
outcomes of the filesystem, loop-device and mounter collaborator calls. -/
structure MountEnv where
  mkdirOk : Bool
  attachResult : Except String String
  mountOk : Bool
  notMountPoint : Bool
  unmountOk : Bool
  detachOk : Bool
deriving Repr

/-- `Elemental.MountImage`: attaches a loop device to the image file, mounts
it, and on mount failure detaches the just-attached loop device; the image
loop-device field is set only after a successful mount. Returns the updated
image, the error and the event trace. -/
def mountImage (env : MountEnv) (img : Image) :
    (Image × Option String) × List MEvent :=
  if env.mkdirOk then
    match env.attachResult with
    | .error e => ((img, some e), [.mkdirAll img.mountPoint, .losetupAttach img.file])
    | .ok loop =>
      if env.mountOk then
        (({ img with loopDevice := loop }, none),
          [.mkdirAll img.mountPoint, .losetupAttach img.file,
           .mount loop img.mountPoint])
      else
        ((img, some "mount failed"),
          [.mkdirAll img.mountPoint, .losetupAttach img.file,
           .mount loop img.mountPoint, .losetupDetach loop])
  else ((img, some "mkdir failed"), [.mkdirAll img.mountPoint])

/-- `Elemental.UnmountImage`: does nothing when the mount point is not
currently mounted (checked through the mounter), otherwise unmounts, detaches
the loop device and clears the loop-device field. -/
def unmountImage (env : MountEnv) (img : Image) :
    (Image × Option String) × List MEvent :=
  if env.notMountPoint then ((img, none), [])
  else if env.unmountOk then
    (({ img with loopDevice := "" },
      if env.detachOk then none else some "detach failed"),
     [.unmount img.mountPoint, .losetupDetach img.loopDevice])
  else ((img, some "unmount failed"), [.unmount img.mountPoint])

/-- C6: the loop-device field is non-empty only while the image is mounted.
`MountImage` sets it only after a successful mount; on any failure the image
is returned unchanged and, when the failure is the mount itself, the
just-attached loop device is detached. `UnmountImage` is a checked no-op when
the mount point is not mounted, and otherwise unmounts, detaches the loop
device and clears the field. -/
theorem c6_loopDevice_only_while_mounted (env : MountEnv) (img : Image) :
    (((mountImage env img).1.2 ≠ none → (mountImage env img).1.1 = img) ∧
     (∀ loop, env.attachResult = .ok loop → env.mkdirOk = true →
       env.mountOk = false →
       (mountImage env img).1.2 ≠ none ∧
       MEvent.losetupDetach loop ∈ (mountImage env img).2) ∧
     (∀ loop, env.attachResult = .ok loop → env.mkdirOk = true →
       env.mountOk = true →
       (mountImage env img).1.2 = none ∧
       (mountImage env img).1.1.loopDevice = loop)) ∧
    ((env.notMountPoint = true → unmountImage env img = ((img, none), [])) ∧
     (env.notMountPoint = false → env.unmountOk = true →
       (unmountImage env img).1.1.loopDevice = "" ∧
       (unmountImage env img).2 =
         [.unmount img.mountPoint, .losetupDetach img.loopDevice])) := by
  refine ⟨⟨?_, ?_, ?_⟩, ?_, ?_⟩
  · intro herr
    unfold mountImage at *
    cases hm : env.mkdirOk <;> simp [hm] at herr ⊢
    cases ha : env.attachResult <;> simp [ha] at herr ⊢
    cases ho : env.mountOk <;> simp [ho] at herr ⊢
  · intro loop ha hm ho
    unfold mountImage
    simp [hm, ha, ho]
  · intro loop ha hm ho
    unfold mountImage
    simp [hm, ha, ho]
  · intro hn
    unfold unmountImage
    simp [hn]
  · intro hn hu
    unfold unmountImage
    simp [hn, hu]

/-- Witness for C6 at a concrete environment: a failing mount detaches the
attached loop device and leaves the image unchanged. -/
theorem c6_loopDevice_only_while_mounted_witness :
    ((mountImage
        { mkdirOk := true, attachResult := .ok "/dev/loop0", mountOk := false,
          notMountPoint := false, unmountOk := true, detachOk := true }
        { file := "/run/t.img", label := "COS_ACTIVE", size := 3072,
          fs := "ext2", mountPoint := "/run/mnt", loopDevice := "" }).1.2 ≠
      none ∧
     MEvent.losetupDetach "/dev/loop0" ∈
       (mountImage
         { mkdirOk := true, attachResult := .ok "/dev/loop0", mountOk := false,
           notMountPoint := false, unmountOk := true, detachOk := true }
         { file := "/run/t.img", label := "COS_ACTIVE", size := 3072,
           fs := "ext2", mountPoint := "/run/mnt", loopDevice := "" }).2) :=
  ((c6_loopDevice_only_while_mounted
      { mkdirOk := true, attachResult := .ok "/dev/loop0", mountOk := false,
        notMountPoint := false, unmountOk := true, detachOk := true }
      { file := "/run/t.img", label := "COS_ACTIVE", size := 3072,
        fs := "ext2", mountPoint := "/run/mnt", loopDevice := "" }).1.2.1
    "/dev/loop0" (by rfl) (by rfl) (by rfl))

/-- Environment for `Elemental.CreateFileSystemImage`: outcomes of the
directory creation, the file creation, the truncation to the image size, the
file close and the mkfs call. -/
structure CfsEnv where
  mkdirOk : Bool
  createOk : Bool
  truncateOk : Bool
  closeOk : Bool
  mkfsOk : Bool
deriving Repr, DecidableEq

/-- The set of files present on disk, as a list of paths. -/
abbrev FileSet := List String

def fsRemove (path : String) (files : FileSet) : FileSet :=
  files.filter (fun p => p ≠ path)

/-- `Elemental.CreateFileSystemImage`: creates the backing file, truncates it
to the image size, closes it and formats it with mkfs; when the truncate,
close or mkfs step fails the created file is removed before returning the
error. -/
def createFileSystemImage (env : CfsEnv) (files : FileSet) (img : Image) :
    FileSet × Option String :=
  if env.mkdirOk then
    if env.createOk then
      let files1 := img.file :: files
      if env.truncateOk then
        if env.closeOk then
          if env.mkfsOk then (files1, none)
          else (fsRemove img.file files1, some "mkfs failed")
        else (fsRemove img.file files1, some "close failed")
      else (fsRemove img.file files1, some "truncate failed")
    else (files, some "create failed")
  else (files, some "mkdir failed")

/-- C10: `CreateFileSystemImage` is atomic on error. If truncating, closing
or formatting the backing file fails, the call returns an error and the image
file is not present afterwards: a failed call never leaves a partially
created filesystem image file on disk. -/
theorem c10_createFileSystemImage_atomic (env : CfsEnv) (files : FileSet)
    (img : Image) (hmk : env.mkdirOk = true) (hcr : env.createOk = true)
    (hfail : env.truncateOk = false ∨ env.closeOk = false ∨ env.mkfsOk = false) :
    (createFileSystemImage env files img).2 ≠ none ∧
    img.file ∉ (createFileSystemImage env files img).1 := by
  unfold createFileSystemImage
  have hnot : ∀ fs : FileSet, img.file ∉ fsRemove img.file fs := by
    intro fs hmem
    simp [fsRemove] at hmem
  rcases hfail with h | h | h
  · simp [hmk, hcr, h, hnot]
  · cases ht : env.truncateOk <;> simp [hmk, hcr, h, ht, hnot]
  · cases ht : env.truncateOk <;> cases hc : env.closeOk <;>
      simp [hmk, hcr, h, ht, hc, hnot]

/-- Witness for C10: a failing mkfs removes the created image file and
returns an error. -/
theorem c10_createFileSystemImage_atomic_witness :
    (createFileSystemImage
        { mkdirOk := true, createOk := true, truncateOk := true,
          closeOk := true, mkfsOk := false } ["/other/file"]
        { file := "/run/t.img", label := "COS_ACTIVE", size := 3072,
          fs := "ext2", mountPoint := "/run/mnt", loopDevice := "" }).2 ≠
      none ∧
    "/run/t.img" ∉
      (createFileSystemImage
        { mkdirOk := true, createOk := true, truncateOk := true,
          closeOk := true, mkfsOk := false } ["/other/file"]
        { file := "/run/t.img", label := "COS_ACTIVE", size := 3072,
          fs := "ext2", mountPoint := "/run/mnt", loopDevice := "" }).1 :=
  c10_createFileSystemImage_atomic
    { mkdirOk := true, createOk := true, truncateOk := true,
      closeOk := true, mkfsOk := false } ["/other/file"]
    { file := "/run/t.img", label := "COS_ACTIVE", size := 3072,
      fs := "ext2", mountPoint := "/run/mnt", loopDevice := "" }
    (by rfl) (by rfl) (by simp)

end Elemental

namespace CleanStack

/-- Modelled from the spec: the Resource Cleanup Stack implementation
(`utils.CleanStack` with `Push`/`Pop`/`Cleanup`) is not present under src —
only its unit tests (src/pkg/utils/utils_test.go) and its callers (install,
reset, upgrade orchestrators) are. Modelled from spec section 4.5: a LIFO
stack of cleanup callbacks; `cleanup(priorErr)` drains the stack from the top
(most-recently pushed first), invoking every callback even if earlier ones
error; if `priorErr` is non-nil the returned error always contains it, and
any cleanup-callback errors are appended alongside it, never silently
dropped. A callback is modelled by an identifier and its error outcome; the
combined error is the list of its component error messages (empty = nil). -/
structure CleanJob where
  id : Nat
  res : Option String
deriving Repr, DecidableEq

/-- The stack: head is the top (most recently pushed callback). -/
abbrev Stack := List CleanJob

/-- `CleanStack.Push`. -/
def push (s : Stack) (j : CleanJob) : Stack := j :: s

/-- `CleanStack.Pop`. -/
def pop (s : Stack) : Option CleanJob × Stack :=
  match s with
  | [] => (none, [])
  | j :: rest => (some j, rest)

/-- Drains the stack top first, returning the invocation order (callback
identifiers) and the collected callback error messages in invocation
order. -/
def drain : Stack → List Nat × List String
  | [] => ([], [])
  | j :: rest =>
    let r := drain rest
    (j.id :: r.1, j.res.toList ++ r.2)

/-- `CleanStack.Cleanup`: drains every callback and combines the prior error
with the callback errors; the result is a nil error exactly when the combined
list is empty. -/
def cleanup (s : Stack) (priorErr : Option String) : List Nat × List String :=
  let r := drain s
  (r.1, priorErr.toList ++ r.2)

theorem foldl_push_eq_reverse (jobs : List CleanJob) (acc : Stack) :
    jobs.foldl push acc = jobs.reverse ++ acc := by
  induction jobs generalizing acc with
  | nil => simp
  | cons j rest ih => simp [push, ih]

theorem drain_ids (s : Stack) : (drain s).1 = s.map CleanJob.id := by
  induction s with
  | nil => rfl
  | cons j rest ih => simp [drain, ih]

theorem drain_errs_mem (s : Stack) (j : CleanJob) (e : String)
    (hj : j ∈ s) (he : j.res = some e) : e ∈ (drain s).2 := by
  induction s with
  | nil => cases hj
  | cons k rest ih =>
    rcases List.mem_cons.mp hj with h | h
    · subst h
      simp [drain, he]
    · simp [drain, ih h]

/-- C2: for every sequence of callbacks pushed in order and every prior
error, `cleanup(priorErr)` invokes every pushed callback exactly once in
reverse push order (even when callbacks error), the returned error contains
`priorErr` whenever it is non-nil, every callback error is reported alongside
rather than dropped, and the returned error is non-nil whenever the prior
error is non-nil. -/
theorem c2_cleanup_reverse_order_and_errors (jobs : List CleanJob)
    (priorErr : Option String) :
    (cleanup (jobs.foldl push []) priorErr).1 =
      (jobs.map CleanJob.id).reverse ∧
    (∀ e, priorErr = some e → e ∈ (cleanup (jobs.foldl push []) priorErr).2) ∧
    (∀ j ∈ jobs, ∀ e, j.res = some e →
      e ∈ (cleanup (jobs.foldl push []) priorErr).2) ∧
    (priorErr ≠ none → (cleanup (jobs.foldl push []) priorErr).2 ≠ []) := by
  refine ⟨?_, ?_, ?_, ?_⟩
  · simp [cleanup, drain_ids, foldl_push_eq_reverse]
  · intro e he
    simp [cleanup, he]
  · intro j hj e he
    have hmem : j ∈ jobs.foldl push [] := by
      rw [foldl_push_eq_reverse]
      simp [hj]
    have := drain_errs_mem (jobs.foldl push []) j e hmem he
    simp [cleanup, this]
  · intro hne
    rcases priorErr with _ | e
    · exact absurd rfl hne
    · simp [cleanup]

/-- Witness for C2: pushing callbacks 1, 2, 3 where callback 2 errors, then
calling `cleanup(nil)`, runs 3, 2, 1 in that order and returns a non-nil
error reporting the callback error. -/
theorem c2_cleanup_reverse_order_and_errors_witness :
    (cleanup
      ([{ id := 1, res := none }, { id := 2, res := some "Cleanup error" },
        { id := 3, res := none }].foldl push []) none).1 = [3, 2, 1] ∧
    "Cleanup error" ∈
      (cleanup
        ([{ id := 1, res := none }, { id := 2, res := some "Cleanup error" },
          { id := 3, res := none }].foldl push []) none).2 := by
  have h := c2_cleanup_reverse_order_and_errors
    [{ id := 1, res := none }, { id := 2, res := some "Cleanup error" },
     { id := 3, res := none }] none
  exact ⟨h.1, h.2.2.1 { id := 2, res := some "Cleanup error" } (by decide)
    "Cleanup error" (by rfl)⟩

end CleanStack

namespace Chroot

/-- Modelled from the spec: the current Chroot executor revision — the one
with prepared-state tracking, extra mounts, `RunCallback` and deferred root
restoration, exercised by src/pkg/utils/utils_test.go — is not present under
src; src/pkg/utils/chroot.go holds a superseded revision without these
behaviours. Modelled from spec section 4.4: state not-prepared → prepared →
not-prepared; `prepare()` bind-mounts `/dev`, `/dev/pts`, `/proc`, `/sys`
plus caller-supplied extra mount pairs under the target root, and calling it
twice without an intervening `close()` is a hard error. -/
structure ChrootSt where
  path : String
  defaultMounts : List String
  extraMounts : List (String × String)
  activeMounts : List String
deriving Repr, DecidableEq

/-- Environment for the Chroot executor: outcomes of the mount, unmount,
root-handle, root-switch, command-execution and root-restore collaborator
calls. -/
structure ChrootEnv where
  mountOk : Bool
  unmountOk : Bool
  openRootOk : Bool
  chrootOk : Bool
  execOk : Bool
  restoreOk : Bool
deriving Repr, DecidableEq

/-- A fresh, not-prepared executor for a target root. -/
def newChroot (path : String) (extra : List (String × String)) : ChrootSt :=
  { path := path, defaultMounts := ["/dev", "/dev/pts", "/proc", "/sys"],
    extraMounts := extra, activeMounts := [] }

/-- Modelled from the spec: `prepare()` — a second call without an
intervening `close()` is a hard error with no second round of bind mounts;
otherwise the default and extra mount points are bind-mounted under the
target root and recorded. -/
def prepare (env : ChrootEnv) (c : ChrootSt) : ChrootSt × Option String :=
  if c.activeMounts.isEmpty then
    if env.mountOk then
      ({ c with activeMounts :=
          c.defaultMounts.map (fun mnt => c.path ++ mnt) ++
          c.extraMounts.map (fun pr => c.path ++ pr.2) }, none)
    else (c, some "mount failed")
  else (c, some "there are already mounted resources, unmount them first")

/-- Modelled from the spec: `close()` — unmounts everything `prepare()`
mounted; an unmount error aborts further unmounts and is surfaced. -/
def close (env : ChrootEnv) (c : ChrootSt) : ChrootSt × Option String :=
  if env.unmountOk then ({ c with activeMounts := [] }, none)
  else (c, some "failed closing chroot")

/-- Steps of the chrooted `run` operation. -/
inductive CEvent where
  | openRoot
  | prepareMounts
  | chrootEnter
  | exec
  | restoreRoot
  | closeMounts
deriving Repr, DecidableEq

/-- Modelled from the spec: `run(command)` — records the real root, prepares
mounts if not already prepared, switches the process root into the target,
executes, restores the real root, reverses the root switch and closes the
mounts it prepared itself; on any step failure after the root switch it still
attempts to restore the root before returning the error. -/
def run (env : ChrootEnv) (c : ChrootSt) :
    (ChrootSt × Option String) × List CEvent :=
  if env.openRootOk then
    if c.activeMounts.isEmpty then
      match prepare env c with
      | (c1, some e) => ((c1, some e), [.openRoot, .prepareMounts])
      | (c1, none) =>
        if env.chrootOk then
          let execErr : Option String :=
            if env.execOk then none else some "exec failed"
          let restoreErr : Option String :=
            if env.restoreOk then none else some "restore failed"
          match close env c1 with
          | (c2, some e) =>
            ((c2, execErr.orElse (fun _ => restoreErr.orElse (fun _ => some e))),
             [.openRoot, .prepareMounts, .chrootEnter, .exec, .restoreRoot,
              .closeMounts])
          | (c2, none) =>
            ((c2, execErr.orElse (fun _ => restoreErr)),
             [.openRoot, .prepareMounts, .chrootEnter, .exec, .restoreRoot,
              .closeMounts])
        else ((c1, some "chroot failed"),
          [.openRoot, .prepareMounts, .chrootEnter])
    else
      if env.chrootOk then
        let execErr : Option String :=
          if env.execOk then none else some "exec failed"
        let restoreErr : Option String :=
          if env.restoreOk then none else some "restore failed"
        ((c, execErr.orElse (fun _ => restoreErr)),
         [.openRoot, .chrootEnter, .exec, .restoreRoot])
      else ((c, some "chroot failed"), [.openRoot, .chrootEnter])
  else ((c, some "failed opening root"), [.openRoot])

/-- C8: calling `prepare()` a second time without an intervening `close()`
returns an error and performs no second round of bind mounts, while `close()`
after a single `prepare()` succeeds and leaves no mounts. -/
theorem c8_prepare_twice_is_error (env : ChrootEnv) (path : String)
    (extra : List (String × String))
    (hm : env.mountOk = true) (hu : env.unmountOk = true) :
    (prepare env (newChroot path extra)).2 = none ∧
    (prepare env (prepare env (newChroot path extra)).1).2 ≠ none ∧
    (prepare env (prepare env (newChroot path extra)).1).1 =
      (prepare env (newChroot path extra)).1 ∧
    (close env (prepare env (newChroot path extra)).1).2 = none ∧
    (close env (prepare env (newChroot path extra)).1).1.activeMounts = [] := by
  refine ⟨?_, ?_, ?_, ?_, ?_⟩ <;>
    simp [prepare, close, newChroot, hm, hu]

/-- Witness for C8 at a concrete target root with one extra mount pair. -/
theorem c8_prepare_twice_is_error_witness :
    (prepare
      { mountOk := true, unmountOk := true, openRootOk := true,
        chrootOk := true, execOk := true, restoreOk := true }
      (newChroot "/run/rootfs" [("/oem", "/oem")])).2 = none ∧
    (prepare
      { mountOk := true, unmountOk := true, openRootOk := true,
        chrootOk := true, execOk := true, restoreOk := true }
      (prepare
        { mountOk := true, unmountOk := true, openRootOk := true,
          chrootOk := true, execOk := true, restoreOk := true }
        (newChroot "/run/rootfs" [("/oem", "/oem")])).1).2 ≠ none :=
  ⟨(c8_prepare_twice_is_error _ "/run/rootfs" [("/oem", "/oem")]
      (by rfl) (by rfl)).1,
   (c8_prepare_twice_is_error _ "/run/rootfs" [("/oem", "/oem")]
      (by rfl) (by rfl)).2.1⟩

/-- C9: whenever the run operation has switched the process root (the root
handle was acquired, the mounts were available and the root switch
succeeded), the executor attempts to restore the original root before
returning, in order, even when the executed command itself fails — and a
command failure is still reported as an error. -/
theorem c9_run_restores_root (env : ChrootEnv) (c : ChrootSt)
    (ho : env.openRootOk = true) (hc : env.chrootOk = true)
    (hprep : c.activeMounts.isEmpty = false ∨ env.mountOk = true) :
    CEvent.restoreRoot ∈ (run env c).2 ∧
    [CEvent.chrootEnter, CEvent.exec, CEvent.restoreRoot].Sublist
      (run env c).2 ∧
    (env.execOk = false → (run env c).1.2 ≠ none) := by
  unfold run
  rcases hprep with h | h
  · refine ⟨?_, ?_, ?_⟩ <;>
      simp [ho, hc, h, prepare, close, Option.orElse]
    intro hx
    simp [hx]
  · cases he : c.activeMounts.isEmpty <;>
      cases hu : env.unmountOk <;>
      refine ⟨?_, ?_, ?_⟩ <;>
      simp [ho, hc, h, he, hu, prepare, close, Option.orElse] <;>
      intro hx <;> simp [hx]

/-- Witness for C9: a failing chrooted command on a fresh executor still
yields the root-restore attempt in the trace and a non-nil error. -/
theorem c9_run_restores_root_witness :
    CEvent.restoreRoot ∈
      (run
        { mountOk := true, unmountOk := true, openRootOk := true,
          chrootOk := true, execOk := false, restoreOk := true }
        (newChroot "/run/rootfs" [])).2 ∧
    (run
      { mountOk := true, unmountOk := true, openRootOk := true,
        chrootOk := true, execOk := false, restoreOk := true }
      (newChroot "/run/rootfs" [])).1.2 ≠ none :=
  ⟨(c9_run_restores_root _ (newChroot "/run/rootfs" [])
      (by rfl) (by rfl) (Or.inr (by rfl))).1,
   (c9_run_restores_root _ (newChroot "/run/rootfs" [])
      (by rfl) (by rfl) (Or.inr (by rfl))).2.2 (by rfl)⟩

end Chroot

namespace Reset

/-- Effects issued while setting up and running a reset. Only `formatPart`
(and a partition-table write, which the reset flow never performs) mutate the
partition layout; every other effect is a read, a mount operation or a file
copy. -/
inductive REvent where
  | readCmdline
  | statEfiDevice
  | readPartitions
  | statFile (p : String)
  | hook (name : String)
  | unmountAllParts
  | formatPart (name : String)
  | mountAllParts
  | createImg
  | mountImg
  | copyActive
  | grubInstall
  | relabel
  | unmountImg
  | copyPassive
  | rebrand
  | cleanupUnmountParts
  | cleanupUnmountImg
deriving Repr, DecidableEq

/-- Whether an effect mutates the partition layout (a format or a
partition-table write). -/
def REvent.isPartitionMutation : REvent → Bool
  | .formatPart _ => true
  | _ => false

/-- Host partition record used by the reset spec construction. -/
structure PartInfo where
  mountPoint : String
  disk : String
deriving Repr, DecidableEq

/-- Environment for `NewResetSpec`: current boot state and host partition
layout as observed through the runner and filesystem collaborators. -/
structure ResetSpecEnv where
  bootedFromSquash : Bool
  bootedFromSystemLabel : Bool
  efiExists : Bool
  partitionsOk : Bool
  efiPart : Option PartInfo
  statePart : Option PartInfo
  oemPart : Option PartInfo
  persistentPart : Option PartInfo
  recoveryImgExists : Bool
deriving Repr

/-- The reset spec as constructed by `NewResetSpec` (the fields the reset run
consumes). -/
structure ResetSpecM where
  target : String
  hasOem : Bool
  hasPersistent : Bool
  sourceIsFile : Bool
  activeFile : String
deriving Repr, DecidableEq

/-- `NewResetSpec` (from the current config revision in src): first verifies
that the system is booted from the recovery squashfs or the recovery system
image — otherwise it fails with the reset-precondition error before touching
anything else — then reads the host partitions and assembles the reset spec.
The two boot checks short-circuit like the Go conjunction. The branches where
the Go code returns a nil spec together with a nil error (EFI or State
partition missing after an error-free partition read) are modelled as
`(none, none)`. -/
def newResetSpec (env : ResetSpecEnv) :
    (Option ResetSpecM × Option String) × List REvent :=
  let bootEvs : List REvent :=
    if env.bootedFromSquash then [.readCmdline] else [.readCmdline, .readCmdline]
  if !env.bootedFromSquash && !env.bootedFromSystemLabel then
    ((none, some "reset can only be called from the recovery system"),
     [.readCmdline, .readCmdline])
  else
    let evs := bootEvs ++ [.statEfiDevice, .readPartitions]
    if env.partitionsOk then
      if env.efiExists && env.efiPart.isNone then ((none, none), evs)
      else
        match env.statePart with
        | none => ((none, none), evs)
        | some statePart =>
          let srcEvs : List REvent :=
            if env.recoveryImgExists then [.statFile "/run/initramfs/cos-state/cOS/recovery.img"]
            else [.statFile "/run/initramfs/cos-state/cOS/recovery.img",
                  .statFile "/run/rootfsbase"]
          ((some { target := statePart.disk,
                   hasOem := env.oemPart.isSome,
                   hasPersistent := env.persistentPart.isSome,
                   sourceIsFile := env.recoveryImgExists,
                   activeFile := statePart.mountPoint ++ "/cOS/active.img" },
            none), evs ++ srcEvs)
    else ((none, some "could not read host partitions"), evs)

/-- Environment for the reset run: the reset-persistent flag and the outcomes
of the collaborator calls performed by each step. -/
structure ResetRunEnv where
  formatPersistentFlag : Bool
  hookBeforeOk : Bool
  unmountPartsOk : Bool
  formatStateOk : Bool
  formatPersistentOk : Bool
  formatOemOk : Bool
  mountPartsOk : Bool
  createImgOk : Bool
  mountImgOk : Bool
  copyActiveOk : Bool
  grubOk : Bool
  hookChrootOk : Bool
  unmountImgOk : Bool
  copyPassiveOk : Bool
  hookAfterOk : Bool
  rebrandOk : Bool
  cleanupOk : Bool
deriving Repr, DecidableEq

/-- Drains the reset cleanup stack (head = most recently pushed callback)
into its event trace. -/
def drainResetCleanup : List REvent → List REvent
  | [] => []
  | ev :: rest => ev :: drainResetCleanup rest

/-- Finishes a reset run: drains the cleanup stack and combines its outcome
with the prior error. -/
def rfinish (env : ResetRunEnv) (stack : List REvent) (tr : List REvent)
    (err : Option String) : Option String × List REvent :=
  let err2 : Option String :=
    match err with
    | some e => some e
    | none => if env.cleanupOk then none else some "cleanup failed"
  (err2, tr ++ drainResetCleanup stack)

/-- Grub install, chrooted hook, image unmount, passive copy, after hook and
rebrand (the tail of the reset run). -/
def resetDeployRest (env : ResetRunEnv) (stack : List REvent)
    (tr : List REvent) : Option String × List REvent :=
  if env.grubOk then
    let tr := tr ++ [REvent.grubInstall, REvent.relabel]
    if env.hookChrootOk then
      let tr := tr ++ [REvent.hook "after-reset-chroot"]
      if env.unmountImgOk then
        let tr := tr ++ [REvent.unmountImg]
        if env.copyPassiveOk then
          let tr := tr ++ [REvent.copyPassive]
          if env.hookAfterOk then
            let tr := tr ++ [REvent.hook "after-reset"]
            if env.rebrandOk then
              rfinish env stack (tr ++ [REvent.rebrand]) none
            else rfinish env stack (tr ++ [REvent.rebrand])
              (some "rebrand failed")
          else rfinish env stack (tr ++ [REvent.hook "after-reset"])
            (some "hook failed")
        else rfinish env stack (tr ++ [REvent.copyPassive])
          (some "copy passive failed")
      else rfinish env stack (tr ++ [REvent.unmountImg])
        (some "unmount image failed")
    else rfinish env stack (tr ++ [REvent.hook "after-reset-chroot"])
      (some "hook failed")
  else rfinish env stack (tr ++ [REvent.grubInstall])
    (some "grub install failed")

/-- The reset run (following `ResetRun` in src/unnamed/part_012, with the
image source drawn from the constructed spec): before-reset hook, unmount of
stale mounts, reformat of the State partition (plus Persistent/OEM when
requested), remount, active image redeployment from the recovery content
source, bootloader install, chrooted and plain after hooks, passive rewrite
and rebrand, under the cleanup-stack discipline. -/
def resetRun (env : ResetRunEnv) (spec : ResetSpecM) :
    Option String × List REvent :=
  if env.hookBeforeOk then
    if env.unmountPartsOk then
      if env.formatStateOk then
        let fmtEvs : List REvent :=
          [.hook "before-reset", .unmountAllParts, .formatPart "state"]
        let persistentStep : Option (List REvent) :=
          if env.formatPersistentFlag then
            if spec.hasPersistent && !env.formatPersistentOk then none
            else if spec.hasOem && !env.formatOemOk then none
            else some ((if spec.hasPersistent then [REvent.formatPart "persistent"] else []) ++
              (if spec.hasOem then [REvent.formatPart "oem"] else []))
          else some []
        match persistentStep with
        | none =>
          rfinish env []
            (fmtEvs ++ (if spec.hasPersistent ∧ env.formatPersistentFlag then
              [REvent.formatPart "persistent"] else []))
            (some "format failed")
        | some moreFmt =>
          let tr := fmtEvs ++ moreFmt
          if env.mountPartsOk then
            let tr := tr ++ [REvent.mountAllParts]
            let stack := [REvent.cleanupUnmountParts]
            if spec.sourceIsFile then
              if env.copyActiveOk then
                if env.mountImgOk then
                  resetDeployRest env (REvent.cleanupUnmountImg :: stack)
                    (tr ++ [.copyActive, .mountImg])
                else rfinish env stack (tr ++ [.copyActive, .mountImg])
                  (some "mount image failed")
              else rfinish env stack (tr ++ [.copyActive]) (some "copy failed")
            else
              if env.createImgOk then
                if env.mountImgOk then
                  if env.copyActiveOk then
                    resetDeployRest env (REvent.cleanupUnmountImg :: stack)
                      (tr ++ [.createImg, .mountImg, .copyActive])
                  else rfinish env (REvent.cleanupUnmountImg :: stack)
                    (tr ++ [.createImg, .mountImg, .copyActive])
                    (some "copy failed")
                else rfinish env stack (tr ++ [.createImg, .mountImg])
                  (some "mount image failed")
              else rfinish env stack (tr ++ [.createImg])
                (some "create image failed")
          else rfinish env [] (tr ++ [REvent.mountAllParts])
            (some "mount failed")
      else
        rfinish env []
          [.hook "before-reset", .unmountAllParts, .formatPart "state"]
          (some "format failed")
    else rfinish env [] [.hook "before-reset", .unmountAllParts]
      (some "unmount failed")
  else rfinish env [] [.hook "before-reset"] (some "hook failed")

/-- The reset entry point: builds the reset spec and runs the reset action
only when the spec construction succeeded. -/
def resetCmd (senv : ResetSpecEnv) (renv : ResetRunEnv) :
    Option String × List REvent :=
  match newResetSpec senv with
  | ((some spec, _), evs) =>
    let r := resetRun renv spec
    (r.1, evs ++ r.2)
  | ((none, e), evs) => (e, evs)

/-- C3: when the system is not booted from the recovery squashfs nor from the
recovery system image, invoking reset fails with the error "reset can only be
called from the recovery system" and the effect trace contains no partition
mutation (no format, no partition-table write). -/
theorem c3_reset_precondition (senv : ResetSpecEnv) (renv : ResetRunEnv)
    (hsq : senv.bootedFromSquash = false)
    (hsl : senv.bootedFromSystemLabel = false) :
    (resetCmd senv renv).1 =
      some "reset can only be called from the recovery system" ∧
    ∀ ev ∈ (resetCmd senv renv).2, ev.isPartitionMutation = false := by
  unfold resetCmd newResetSpec
  simp [hsq, hsl, REvent.isPartitionMutation]

/-- Witness for C3 at a concrete environment not booted from recovery. -/
theorem c3_reset_precondition_witness :
    (resetCmd
      { bootedFromSquash := false, bootedFromSystemLabel := false,
        efiExists := true, partitionsOk := true, efiPart := none,
        statePart := some { mountPoint := "/run/initramfs/cos-state", disk := "/dev/sda" },
        oemPart := none, persistentPart := none, recoveryImgExists := true }
      { formatPersistentFlag := false, hookBeforeOk := true,
        unmountPartsOk := true, formatStateOk := true,
        formatPersistentOk := true, formatOemOk := true, mountPartsOk := true,
        createImgOk := true, mountImgOk := true, copyActiveOk := true,
        grubOk := true, hookChrootOk := true, unmountImgOk := true,
        copyPassiveOk := true, hookAfterOk := true, rebrandOk := true,
        cleanupOk := true }).1 =
      some "reset can only be called from the recovery system" :=
  (c3_reset_precondition _ _ (by rfl) (by rfl)).1

end Reset

namespace Upgrade

/-- File store: association of paths to content identifiers. Two files are
byte-identical exactly when they map to the same content identifier. -/
abbrev FileMap := List (String × Nat)

def fmGet : FileMap → String → Option Nat
  | [], _ => none
  | (k, v) :: rest, key => if k = key then some v else fmGet rest key

def fmRemove (key : String) (fs : FileMap) : FileMap :=
  fs.filter (fun p => p.1 ≠ key)

def fmSet (key : String) (v : Nat) (fs : FileMap) : FileMap :=
  (key, v) :: fmRemove key fs

/-- `mv -f src dst`: the destination takes the source content and the source
disappears. -/
def fmMove (src dst : String) (fs : FileMap) : FileMap :=
  match fmGet fs src with
  | some c => fmRemove src (fmSet dst c fs)
  | none => fs

theorem fmGet_fmRemove_ne (key k : String) (fs : FileMap) (h : k ≠ key) :
    fmGet (fmRemove k fs) key = fmGet fs key := by
  induction fs with
  | nil => rfl
  | cons p rest ih =>
    have hkk : ¬key = k := fun hc => h hc.symm
    by_cases hp : p.1 = k
    · have hk : ¬p.1 = key := by intro hc; exact h (hp.symm.trans hc)
      simpa [fmRemove, List.filter_cons, fmGet, hp, hk, h] using ih
    · unfold fmRemove at ih
      simp only [ne_eq, decide_not] at ih
      by_cases hk : p.1 = key <;>
        simp [fmRemove, List.filter_cons, fmGet, hp, hk, h, hkk, ih]

theorem fmGet_fmSet_ne (key k : String) (v : Nat) (fs : FileMap)
    (h : k ≠ key) : fmGet (fmSet k v fs) key = fmGet fs key := by
  simp [fmSet, fmGet, h, fmGet_fmRemove_ne key k fs h]

theorem fmGet_fmMove_ne (key src dst : String) (fs : FileMap)
    (hs : src ≠ key) (hd : dst ≠ key) :
    fmGet (fmMove src dst fs) key = fmGet fs key := by
  unfold fmMove
  cases h : fmGet fs src with
  | none => rfl
  | some c =>
    rw [fmGet_fmRemove_ne key src _ hs, fmGet_fmSet_ne key dst c fs hd]

/-- Effects of the upgrade run, in execution order. -/
inductive UEvent where
  | mountPart (opts : List String)
  | mountPersistent
  | hook (name : String)
  | deploy
  | relabel
  | setGrub (entry : String)
  | unmountImg
  | mvBackup
  | tune2fs
  | syncDisk
  | mvFinal
  | rebootCmd
  | powerOffCmd
  | cleanupUnmountPart
  | cleanupRemove (path : String)
  | cleanupUnmountPersistent
  | cleanupUnmountImg
deriving Repr, DecidableEq

/-- Whether an effect is produced by draining the cleanup stack. -/
def UEvent.isCleanupEv : UEvent → Bool
  | .cleanupUnmountPart => true
  | .cleanupRemove _ => true
  | .cleanupUnmountPersistent => true
  | .cleanupUnmountImg => true
  | _ => false

/-- Cleanup callbacks pushed by the upgrade run (head of the stack is the
most recently pushed callback). -/
inductive CleanCb where
  | unmountPart
  | removeFile (path : String)
  | unmountPersistent
  | unmountImg
deriving Repr, DecidableEq

/-- The upgrade spec consumed by the run (`v1.UpgradeSpec`): the
recovery-upgrade flag, the mount points of the named partitions and the two
transition images. -/
structure USpec where
  recoveryUpgrade : Bool
  recoveryMnt : Option String
  stateMnt : Option String
  persistentMnt : Option String
  recoveryImg : Elemental.Image
  activeImg : Elemental.Image
  passiveLabel : String
deriving Repr, DecidableEq

/-- Environment for the upgrade run: outcomes of every collaborator call and
the content produced by the deployment. -/
structure UEnv where
  partMounted : Bool
  remountOk : Bool
  mountOk : Bool
  persistentMounted : Bool
  persistentMountOk : Bool
  beforeHookOk : Bool
  deployOk : Bool
  deployContent : Nat
  afterChrootHookOk : Bool
  grubEntry : Option String
  setGrubOk : Bool
  afterHookOk : Bool
  unmountImgOk : Bool
  mvBackupOk : Bool
  tune2fsOk : Bool
  mvFinalOk : Bool
  cUnmountPartOk : Bool
  cRemoveOk : Bool
  cUnmountPersistentOk : Bool
  cUnmountImgOk : Bool
  reboot : Bool
  powerOff : Bool
deriving Repr, DecidableEq

def squashFs : String := "squashfs"
def activeImgFile : String := "active.img"
def passiveImgFile : String := "passive.img"
def recoveryImgFile : String := "recovery.img"
def recoverySquashFile : String := "recovery.squashfs"

/-- The image the run deploys: the recovery transition image for a recovery
upgrade, the active transition image otherwise. -/
def upgradeImgOf (spec : USpec) : Elemental.Image :=
  if spec.recoveryUpgrade then spec.recoveryImg else spec.activeImg

/-- Mount point of the partition the run mutates. -/
def mountPartMntOf (spec : USpec) : Option String :=
  if spec.recoveryUpgrade then spec.recoveryMnt else spec.stateMnt

/-- The live image file the transition file is finally renamed over. -/
def finalImageFileOf (spec : USpec) : String :=
  match mountPartMntOf spec with
  | none => ""
  | some m =>
    if spec.recoveryUpgrade then
      if spec.recoveryImg.fs = squashFs then m ++ "/cOS/" ++ recoverySquashFile
      else m ++ "/cOS/" ++ recoveryImgFile
    else m ++ "/cOS/" ++ activeImgFile

/-- Result of draining the cleanup stack. -/
structure CleanRes where
  evs : List UEvent
  fs : FileMap
  ok : Bool

/-- Runs one cleanup callback. -/
def runCb (env : UEnv) (fs : FileMap) : CleanCb → FileMap × UEvent × Bool
  | .unmountPart => (fs, .cleanupUnmountPart, env.cUnmountPartOk)
  | .removeFile p => (fmRemove p fs, .cleanupRemove p, env.cRemoveOk)
  | .unmountPersistent => (fs, .cleanupUnmountPersistent, env.cUnmountPersistentOk)
  | .unmountImg => (fs, .cleanupUnmountImg, env.cUnmountImgOk)

/-- Drains the cleanup stack top first, every callback running even when an
earlier one failed. -/
def runCleanup (env : UEnv) : List CleanCb → FileMap → CleanRes
  | [], fs => { evs := [], fs := fs, ok := true }
  | cb :: rest, fs =>
    let r1 := runCb env fs cb
    let r2 := runCleanup env rest r1.1
    { evs := r1.2.1 :: r2.evs, fs := r2.fs, ok := r1.2.2 && r2.ok }

/-- Result of the upgrade run: the returned error, the final file store and
the trace of effects. -/
structure URes where
  err : Option String
  fs : FileMap
  trace : List UEvent
deriving Repr, DecidableEq

/-- `CleanStack.Cleanup(err)`: drains the stack and keeps the prior error,
reporting cleanup errors when there was none. -/
def finish (env : UEnv) (stack : List CleanCb) (fs : FileMap)
    (err : Option String) : URes :=
  let r := runCleanup env stack fs
  { err :=
      match err with
      | some e => some e
      | none => if r.ok then none else some "cleanup failed",
    fs := r.fs, trace := r.evs }

/-- Final step: renames the transition file over the live image, syncs, runs
the cleanup stack, and reboots or powers off only when no error occurred. -/
def promotePhase (env : UEnv) (spec : USpec) (stack : List CleanCb)
    (fs : FileMap) : URes :=
  if env.mvFinalOk then
    let fs := fmMove (upgradeImgOf spec).file (finalImageFileOf spec) fs
    let r := finish env stack fs none
    let r := { r with trace := [UEvent.mvFinal, UEvent.syncDisk] ++ r.trace }
    match r.err with
    | some _ => r
    | none =>
      if env.reboot then { r with trace := r.trace ++ [UEvent.rebootCmd] }
      else if env.powerOff then { r with trace := r.trace ++ [UEvent.powerOffCmd] }
      else r
  else
    let r := finish env stack fs (some "failed moving transition image")
    { r with trace := [UEvent.mvFinal] ++ r.trace }

/-- From the after-upgrade hook on: hook, transition unmount, then — for a
non-recovery upgrade — the backup move of the current active image into the
passive slot with its relabel, and finally the promotion of the transition
file. -/
def afterPhase (env : UEnv) (spec : USpec) (stack : List CleanCb)
    (fs : FileMap) : URes :=
  if env.afterHookOk then
    if env.unmountImgOk then
      if spec.recoveryUpgrade then
        let r := promotePhase env spec stack fs
        { r with trace :=
            [UEvent.hook "after-upgrade", UEvent.unmountImg] ++ r.trace }
      else
        if env.mvBackupOk then
          let m := spec.stateMnt.getD ""
          let fs := fmMove (m ++ "/cOS/" ++ activeImgFile)
            (m ++ "/cOS/" ++ passiveImgFile) fs
          if env.tune2fsOk then
            let r := promotePhase env spec stack fs
            { r with trace :=
                [UEvent.hook "after-upgrade", UEvent.unmountImg,
                 UEvent.mvBackup, UEvent.tune2fs, UEvent.syncDisk] ++ r.trace }
          else
            let r := finish env stack fs (some "tune2fs failed")
            { r with trace :=
                [UEvent.hook "after-upgrade", UEvent.unmountImg,
                 UEvent.mvBackup, UEvent.tune2fs] ++ r.trace }
        else
          let r := finish env stack fs (some "failed moving active to passive")
          { r with trace :=
              [UEvent.hook "after-upgrade", UEvent.unmountImg,
               UEvent.mvBackup] ++ r.trace }
    else
      let r := finish env stack fs (some "failed unmounting transition image")
      { r with trace := [UEvent.hook "after-upgrade", UEvent.unmountImg] ++ r.trace }
  else
    let r := finish env stack fs (some "hook failed")
    { r with trace := [UEvent.hook "after-upgrade"] ++ r.trace }

/-- From the before-upgrade hook on: hook, transition-image deployment
(pushing its unmount callback), selinux relabel for non-squashfs images
(errors ignored), the chrooted hook, the rebrand stage for non-recovery
upgrades, then the after phase. -/
def corePhase (env : UEnv) (spec : USpec) (stack : List CleanCb)
    (fs : FileMap) : URes :=
  if env.beforeHookOk then
    if env.deployOk then
      let fs := fmSet (upgradeImgOf spec).file env.deployContent fs
      let stack := CleanCb.unmountImg :: stack
      let relabelEvs : List UEvent :=
        if (upgradeImgOf spec).fs = squashFs then [] else [UEvent.relabel]
      if env.afterChrootHookOk then
        if spec.recoveryUpgrade then
          let r := afterPhase env spec stack fs
          { r with trace :=
              [UEvent.hook "before-upgrade", UEvent.deploy] ++ relabelEvs ++
              [UEvent.hook "after-upgrade-chroot"] ++ r.trace }
        else
          match env.grubEntry with
          | some entry =>
            if env.setGrubOk then
              let r := afterPhase env spec stack fs
              { r with trace :=
                  [UEvent.hook "before-upgrade", UEvent.deploy] ++ relabelEvs ++
                  [UEvent.hook "after-upgrade-chroot", UEvent.setGrub entry] ++
                  r.trace }
            else
              let r := finish env stack fs (some "failed setting default entry")
              { r with trace :=
                  [UEvent.hook "before-upgrade", UEvent.deploy] ++ relabelEvs ++
                  [UEvent.hook "after-upgrade-chroot", UEvent.setGrub entry] ++
                  r.trace }
          | none =>
            let r := afterPhase env spec stack fs
            { r with trace :=
                [UEvent.hook "before-upgrade", UEvent.deploy] ++ relabelEvs ++
                [UEvent.hook "after-upgrade-chroot"] ++ r.trace }
      else
        let r := finish env stack fs (some "hook failed")
        { r with trace :=
            [UEvent.hook "before-upgrade", UEvent.deploy] ++ relabelEvs ++
            [UEvent.hook "after-upgrade-chroot"] ++ r.trace }
    else
      let r := finish env stack fs (some "deploy failed")
      { r with trace := [UEvent.hook "before-upgrade", UEvent.deploy] ++ r.trace }
  else
    let r := finish env stack fs (some "hook failed")
    { r with trace := [UEvent.hook "before-upgrade"] ++ r.trace }

/-- Pushes the transition-file removal callback and mounts the persistent
partition when present and not already mounted (failures only warned). -/
def setupPersistent (env : UEnv) (spec : USpec) (stack : List CleanCb)
    (fs : FileMap) : URes :=
  let stack := CleanCb.removeFile (upgradeImgOf spec).file :: stack
  match spec.persistentMnt with
  | some _ =>
    if env.persistentMounted then corePhase env spec stack fs
    else
      if env.persistentMountOk then
        let r := corePhase env spec (CleanCb.unmountPersistent :: stack) fs
        { r with trace := [UEvent.mountPersistent] ++ r.trace }
      else
        let r := corePhase env spec stack fs
        { r with trace := [UEvent.mountPersistent] ++ r.trace }
  | none => corePhase env spec stack fs

/-- `UpgradeAction.Run`: resolves the target partition, remounts or mounts it
read-write, then runs the setup and core phases under the cleanup-stack
discipline. -/
def upgradeRun (env : UEnv) (spec : USpec) (fs0 : FileMap) : URes :=
  match mountPartMntOf spec with
  | none =>
    { err := some (if spec.recoveryUpgrade then "unset recovery partition"
        else "unset state partition"), fs := fs0, trace := [] }
  | some m =>
    if m = "" then
      { err := some (if spec.recoveryUpgrade then "unset recovery partition"
          else "unset state partition"), fs := fs0, trace := [] }
    else
      if env.partMounted then
        if env.remountOk then
          let r := setupPersistent env spec [] fs0
          { r with trace := [UEvent.mountPart ["remount", "rw"]] ++ r.trace }
        else
          { err := some "mount failed", fs := fs0,
            trace := [UEvent.mountPart ["remount", "rw"]] }
      else
        if env.mountOk then
          let r := setupPersistent env spec [CleanCb.unmountPart] fs0
          { r with trace := [UEvent.mountPart ["rw"]] ++ r.trace }
        else
          { err := some "mount failed", fs := fs0,
            trace := [UEvent.mountPart ["rw"]] }

theorem runCleanup_no_core_ev (env : UEnv) (ev : UEvent)
    (hev : ev.isCleanupEv = false) :
    ∀ (stack : List CleanCb) (fs : FileMap),
      ev ∉ (runCleanup env stack fs).evs := by
  intro stack
  induction stack with
  | nil => intro fs; simp [runCleanup]
  | cons cb rest ih =>
    intro fs
    cases cb <;>
      (simp only [runCleanup, runCb, List.mem_cons, not_or]
       exact ⟨fun hc => by rw [hc] at hev; simp [UEvent.isCleanupEv] at hev,
        ih _⟩)

theorem runCleanup_fs_preserved (env : UEnv) (key : String) :
    ∀ (stack : List CleanCb) (fs : FileMap),
      (∀ p, CleanCb.removeFile p ∈ stack → p ≠ key) →
      fmGet (runCleanup env stack fs).fs key = fmGet fs key := by
  intro stack
  induction stack with
  | nil => intro fs _; rfl
  | cons cb rest ih =>
    intro fs h
    have hrest : ∀ p, CleanCb.removeFile p ∈ rest → p ≠ key :=
      fun p hp => h p (List.mem_cons_of_mem _ hp)
    cases cb with
    | removeFile p =>
      have hp : p ≠ key := h p (List.mem_cons_self _ _)
      calc fmGet (runCleanup env (CleanCb.removeFile p :: rest) fs).fs key
          = fmGet (fmRemove p fs) key := ih (fmRemove p fs) hrest
        _ = fmGet fs key := fmGet_fmRemove_ne key p fs hp
    | unmountPart => exact ih fs hrest
    | unmountPersistent => exact ih fs hrest
    | unmountImg => exact ih fs hrest

theorem finish_trace_no_core_ev (env : UEnv) (stack : List CleanCb)
    (fs : FileMap) (err : Option String) (ev : UEvent)
    (hev : ev.isCleanupEv = false) : ev ∉ (finish env stack fs err).trace :=
  runCleanup_no_core_ev env ev hev stack fs

theorem finish_err_some (env : UEnv) (stack : List CleanCb) (fs : FileMap)
    (e : String) : (finish env stack fs (some e)).err = some e := rfl

theorem finish_fs_preserved (env : UEnv) (stack : List CleanCb) (fs : FileMap)
    (err : Option String) (key : String)
    (h : ∀ p, CleanCb.removeFile p ∈ stack → p ≠ key) :
    fmGet (finish env stack fs err).fs key = fmGet fs key :=
  runCleanup_fs_preserved env key stack fs h

theorem promote_mvFinal_mem (env : UEnv) (spec : USpec) (stack : List CleanCb)
    (fs : FileMap) :
    UEvent.mvFinal ∈ (promotePhase env spec stack fs).trace := by
  unfold promotePhase
  cases hm : env.mvFinalOk with
  | false => simp [hm]
  | true =>
    cases he : (finish env stack
        (fmMove (upgradeImgOf spec).file (finalImageFileOf spec) fs) none).err with
    | some e => simp [hm, he]
    | none =>
      cases hr : env.reboot <;> cases hp : env.powerOff <;>
        simp [hm, he, hr, hp]

theorem afterPhase_flags_of_mvFinal (env : UEnv) (spec : USpec)
    (stack : List CleanCb) (fs : FileMap)
    (h : UEvent.mvFinal ∈ (afterPhase env spec stack fs).trace) :
    env.afterHookOk = true ∧ env.unmountImgOk = true := by
  have hfin : ∀ (st : List CleanCb) (f : FileMap) (e : Option String),
      UEvent.mvFinal ∉ (finish env st f e).trace :=
    fun st f e => finish_trace_no_core_ev env st f e _ rfl
  cases ha : env.afterHookOk with
  | false =>
    unfold afterPhase at h
    rw [ha] at h
    simp at h
    exact absurd h (hfin _ _ _)
  | true =>
    cases hu : env.unmountImgOk with
    | false =>
      unfold afterPhase at h
      rw [ha, hu] at h
      simp at h
      exact absurd h (hfin _ _ _)
    | true => exact ⟨rfl, rfl⟩

theorem afterPhase_backup_pair (env : UEnv) (spec : USpec)
    (stack : List CleanCb) (fs : FileMap)
    (hrec : spec.recoveryUpgrade = false)
    (h : UEvent.mvFinal ∈ (afterPhase env spec stack fs).trace) :
    [UEvent.mvBackup, UEvent.mvFinal].Sublist
      (afterPhase env spec stack fs).trace := by
  have hfin : ∀ (st : List CleanCb) (f : FileMap) (e : Option String),
      UEvent.mvFinal ∉ (finish env st f e).trace :=
    fun st f e => finish_trace_no_core_ev env st f e _ rfl
  obtain ⟨ha, hu⟩ := afterPhase_flags_of_mvFinal env spec stack fs h
  unfold afterPhase at h ⊢
  rw [ha, hu, hrec] at h ⊢
  cases hb : env.mvBackupOk with
  | false =>
    rw [hb] at h
    simp at h
    exact absurd h (hfin _ _ _)
  | true =>
    cases ht : env.tune2fsOk with
    | false =>
      rw [hb, ht] at h
      simp at h
      exact absurd h (hfin _ _ _)
    | true =>
      have hm := promote_mvFinal_mem env spec stack
        (fmMove (spec.stateMnt.getD "" ++ "/cOS/" ++ activeImgFile)
          (spec.stateMnt.getD "" ++ "/cOS/" ++ passiveImgFile) fs)
      simp only [eq_self_iff_true, if_true]
      refine List.Sublist.cons _ (List.Sublist.cons _ (List.Sublist.cons₂ _
        (List.Sublist.cons _ (List.Sublist.cons _ ?_))))
      exact List.singleton_sublist.mpr hm

theorem afterPhase_fail_preserved (env : UEnv) (spec : USpec)
    (stack : List CleanCb) (fs : FileMap) (key : String)
    (hstack : ∀ p, CleanCb.removeFile p ∈ stack → p ≠ key)
    (ha : env.afterHookOk = false) :
    (afterPhase env spec stack fs).err ≠ none ∧
    fmGet (afterPhase env spec stack fs).fs key = fmGet fs key := by
  constructor
  · simp [afterPhase, ha, finish]
  · simp only [afterPhase, ha, Bool.false_eq_true, if_false]
    exact finish_fs_preserved env stack fs _ key hstack

theorem corePhase_flags_of_mvFinal (env : UEnv) (spec : USpec)
    (stack : List CleanCb) (fs : FileMap)
    (h : UEvent.mvFinal ∈ (corePhase env spec stack fs).trace) :
    env.beforeHookOk = true ∧ env.deployOk = true ∧
    env.afterChrootHookOk = true ∧ env.afterHookOk = true := by
  have hfin : ∀ (st : List CleanCb) (f : FileMap) (e : Option String),
      UEvent.mvFinal ∉ (finish env st f e).trace :=
    fun st f e => finish_trace_no_core_ev env st f e _ rfl
  cases hb : env.beforeHookOk with
  | false =>
    exfalso
    unfold corePhase at h
    rw [hb] at h
    simp at h
    exact hfin _ _ _ h
  | true =>
  cases hd : env.deployOk with
  | false =>
    exfalso
    unfold corePhase at h
    rw [hb, hd] at h
    simp at h
    exact hfin _ _ _ h
  | true =>
  cases hc : env.afterChrootHookOk with
  | false =>
    exfalso
    unfold corePhase at h
    rw [hb, hd, hc] at h
    by_cases hsq : (upgradeImgOf spec).fs = squashFs <;> simp [hsq] at h <;>
      exact hfin _ _ _ h
  | true =>
    refine ⟨rfl, rfl, rfl, ?_⟩
    unfold corePhase at h
    rw [hb, hd, hc] at h
    cases hrec : spec.recoveryUpgrade with
    | true =>
      by_cases hsq : (upgradeImgOf spec).fs = squashFs <;>
        simp [hrec, hsq] at h <;>
        exact (afterPhase_flags_of_mvFinal env spec _ _ h).1
    | false =>
      cases hge : env.grubEntry with
      | none =>
        by_cases hsq : (upgradeImgOf spec).fs = squashFs <;>
          simp [hrec, hge, hsq] at h <;>
          exact (afterPhase_flags_of_mvFinal env spec _ _ h).1
      | some entry =>
        cases hs : env.setGrubOk with
        | false =>
          exfalso
          by_cases hsq : (upgradeImgOf spec).fs = squashFs <;>
            simp [hrec, hge, hs, hsq] at h <;>
            exact hfin _ _ _ h
        | true =>
          by_cases hsq : (upgradeImgOf spec).fs = squashFs <;>
            simp [hrec, hge, hs, hsq] at h <;>
            exact (afterPhase_flags_of_mvFinal env spec _ _ h).1

theorem corePhase_trace_eq (env : UEnv) (spec : USpec) (stack : List CleanCb)
    (fs : FileMap) (hb : env.beforeHookOk = true) (hd : env.deployOk = true)
    (hc : env.afterChrootHookOk = true) :
    (∃ pre, ((corePhase env spec stack fs).trace =
        UEvent.hook "before-upgrade" :: UEvent.deploy ::
          (pre ++ (afterPhase env spec (CleanCb.unmountImg :: stack)
            (fmSet (upgradeImgOf spec).file env.deployContent fs)).trace)) ∧
      UEvent.mvFinal ∉ pre) ∨
    (∃ pre e, ((corePhase env spec stack fs).trace =
        UEvent.hook "before-upgrade" :: UEvent.deploy ::
          (pre ++ (finish env (CleanCb.unmountImg :: stack)
            (fmSet (upgradeImgOf spec).file env.deployContent fs)
            (some e)).trace)) ∧
      UEvent.mvFinal ∉ pre) := by
  unfold corePhase
  rw [hb, hd, hc]
  simp only [eq_self_iff_true, if_true]
  cases hrec : spec.recoveryUpgrade with
  | true =>
    by_cases hsq : (upgradeImgOf spec).fs = squashFs
    · exact Or.inl ⟨[UEvent.hook "after-upgrade-chroot"], by simp [hsq], by simp⟩
    · exact Or.inl ⟨[UEvent.relabel, UEvent.hook "after-upgrade-chroot"],
        by simp [hsq], by simp⟩
  | false =>
    cases hge : env.grubEntry with
    | none =>
      by_cases hsq : (upgradeImgOf spec).fs = squashFs
      · exact Or.inl ⟨[UEvent.hook "after-upgrade-chroot"], by simp [hsq], by simp⟩
      · exact Or.inl ⟨[UEvent.relabel, UEvent.hook "after-upgrade-chroot"],
          by simp [hsq], by simp⟩
    | some entry =>
      cases hs : env.setGrubOk with
      | true =>
        by_cases hsq : (upgradeImgOf spec).fs = squashFs
        · exact Or.inl ⟨[UEvent.hook "after-upgrade-chroot", UEvent.setGrub entry],
            by simp [hsq, hs], by simp⟩
        · exact Or.inl ⟨[UEvent.relabel, UEvent.hook "after-upgrade-chroot",
            UEvent.setGrub entry], by simp [hsq, hs], by simp⟩
      | false =>
        by_cases hsq : (upgradeImgOf spec).fs = squashFs
        · exact Or.inr ⟨[UEvent.hook "after-upgrade-chroot", UEvent.setGrub entry],
            "failed setting default entry", by simp [hsq, hs], by simp⟩
        · exact Or.inr ⟨[UEvent.relabel, UEvent.hook "after-upgrade-chroot",
            UEvent.setGrub entry], "failed setting default entry",
            by simp [hsq, hs], by simp⟩

theorem corePhase_deploy_pair (env : UEnv) (spec : USpec)
    (stack : List CleanCb) (fs : FileMap)
    (h : UEvent.mvFinal ∈ (corePhase env spec stack fs).trace) :
    [UEvent.deploy, UEvent.mvFinal].Sublist (corePhase env spec stack fs).trace := by
  obtain ⟨hb, hd, hc, _⟩ := corePhase_flags_of_mvFinal env spec stack fs h
  rcases corePhase_trace_eq env spec stack fs hb hd hc with
    ⟨pre, heq, hpre⟩ | ⟨pre, e, heq, hpre⟩
  · rw [heq] at h ⊢
    simp only [List.mem_cons, List.mem_append] at h
    have hafter : UEvent.mvFinal ∈
        (afterPhase env spec (CleanCb.unmountImg :: stack)
          (fmSet (upgradeImgOf spec).file env.deployContent fs)).trace := by
      rcases h with h | h | h
      · cases h
      · cases h
      · rcases h with h | h
        · exact absurd h hpre
        · exact h
    refine List.Sublist.cons _ (List.Sublist.cons₂ _ ?_)
    exact List.singleton_sublist.mpr (List.mem_append.mpr (Or.inr hafter))
  · exfalso
    rw [heq] at h
    simp only [List.mem_cons, List.mem_append] at h
    rcases h with h | h | h
    · cases h
    · cases h
    · rcases h with h | h
      · exact absurd h hpre
      · exact finish_trace_no_core_ev env _ _ _ UEvent.mvFinal rfl h

theorem corePhase_backup_pair (env : UEnv) (spec : USpec)
    (stack : List CleanCb) (fs : FileMap)
    (hrec : spec.recoveryUpgrade = false)
    (h : UEvent.mvFinal ∈ (corePhase env spec stack fs).trace) :
    [UEvent.mvBackup, UEvent.mvFinal].Sublist (corePhase env spec stack fs).trace := by
  obtain ⟨hb, hd, hc, _⟩ := corePhase_flags_of_mvFinal env spec stack fs h
  rcases corePhase_trace_eq env spec stack fs hb hd hc with
    ⟨pre, heq, hpre⟩ | ⟨pre, e, heq, hpre⟩
  · rw [heq] at h ⊢
    simp only [List.mem_cons, List.mem_append] at h
    have hafter : UEvent.mvFinal ∈
        (afterPhase env spec (CleanCb.unmountImg :: stack)
          (fmSet (upgradeImgOf spec).file env.deployContent fs)).trace := by
      rcases h with h | h | h
      · cases h
      · cases h
      · rcases h with h | h
        · exact absurd h hpre
        · exact h
    have hpair := afterPhase_backup_pair env spec (CleanCb.unmountImg :: stack)
      (fmSet (upgradeImgOf spec).file env.deployContent fs) hrec hafter
    refine List.Sublist.cons _ (List.Sublist.cons _ ?_)
    exact hpair.trans (List.sublist_append_right pre _)
  · exfalso
    rw [heq] at h
    simp only [List.mem_cons, List.mem_append] at h
    rcases h with h | h | h
    · cases h
    · cases h
    · rcases h with h | h
      · exact absurd h hpre
      · exact finish_trace_no_core_ev env _ _ _ UEvent.mvFinal rfl h

theorem corePhase_fail_preserved (env : UEnv) (spec : USpec)
    (stack : List CleanCb) (fs : FileMap) (key : String)
    (hkey : (upgradeImgOf spec).file ≠ key)
    (hstack : ∀ p, CleanCb.removeFile p ∈ stack → p ≠ key)
    (hfail : env.beforeHookOk = false ∨ env.deployOk = false ∨
      env.afterChrootHookOk = false ∨ env.afterHookOk = false) :
    (corePhase env spec stack fs).err ≠ none ∧
    fmGet (corePhase env spec stack fs).fs key = fmGet fs key := by
  have hstack1 : ∀ p, CleanCb.removeFile p ∈ CleanCb.unmountImg :: stack →
      p ≠ key := by
    intro p hp
    rcases List.mem_cons.mp hp with h | h
    · cases h
    · exact hstack p h
  have hset : fmGet (fmSet (upgradeImgOf spec).file env.deployContent fs) key =
      fmGet fs key := fmGet_fmSet_ne key _ _ fs hkey
  cases hb : env.beforeHookOk with
  | false =>
    constructor
    · simp [corePhase, hb, finish]
    · simp only [corePhase, hb, Bool.false_eq_true, if_false]
      exact finish_fs_preserved env stack fs _ key hstack
  | true =>
  cases hd : env.deployOk with
  | false =>
    constructor
    · simp [corePhase, hb, hd, finish]
    · simp only [corePhase, hb, hd, Bool.false_eq_true, if_false,
        eq_self_iff_true, if_true]
      exact finish_fs_preserved env stack fs _ key hstack
  | true =>
  cases hc : env.afterChrootHookOk with
  | false =>
    constructor
    · simp [corePhase, hb, hd, hc, finish]
    · simp only [corePhase, hb, hd, hc, Bool.false_eq_true, if_false,
        eq_self_iff_true, if_true]
      exact (finish_fs_preserved env _ _ _ key hstack1).trans hset
  | true =>
    have ha : env.afterHookOk = false := by
      rcases hfail with h | h | h | h
      · rw [hb] at h; cases h
      · rw [hd] at h; cases h
      · rw [hc] at h; cases h
      · exact h
    unfold corePhase
    rw [hb, hd, hc]
    simp only [eq_self_iff_true, if_true]
    cases hrec : spec.recoveryUpgrade with
    | true =>
      have hap := afterPhase_fail_preserved env spec
        (CleanCb.unmountImg :: stack)
        (fmSet (upgradeImgOf spec).file env.deployContent fs) key hstack1 ha
      exact ⟨hap.1, hap.2.trans hset⟩
    | false =>
      cases hge : env.grubEntry with
      | none =>
        have hap := afterPhase_fail_preserved env spec
          (CleanCb.unmountImg :: stack)
          (fmSet (upgradeImgOf spec).file env.deployContent fs) key hstack1 ha
        exact ⟨hap.1, hap.2.trans hset⟩
      | some entry =>
        cases hs : env.setGrubOk with
        | true =>
          have hap := afterPhase_fail_preserved env spec
            (CleanCb.unmountImg :: stack)
            (fmSet (upgradeImgOf spec).file env.deployContent fs) key hstack1 ha
          simp only [hs, eq_self_iff_true, if_true]
          exact ⟨hap.1, hap.2.trans hset⟩
        | false =>
          simp only [hs, Bool.false_eq_true, if_false]
          constructor
          · simp [finish]
          · exact (finish_fs_preserved env _ _ _ key hstack1).trans hset

theorem setupPersistent_cases (env : UEnv) (spec : USpec)
    (stack : List CleanCb) (fs : FileMap) :
    ∃ pre stack2,
      (setupPersistent env spec stack fs).trace =
        pre ++ (corePhase env spec stack2 fs).trace ∧
      UEvent.mvFinal ∉ pre ∧
      (∀ p, CleanCb.removeFile p ∈ stack2 →
        p = (upgradeImgOf spec).file ∨ CleanCb.removeFile p ∈ stack) ∧
      (setupPersistent env spec stack fs).err =
        (corePhase env spec stack2 fs).err ∧
      (setupPersistent env spec stack fs).fs =
        (corePhase env spec stack2 fs).fs := by
  unfold setupPersistent
  cases hp : spec.persistentMnt with
  | none =>
    refine ⟨[], CleanCb.removeFile (upgradeImgOf spec).file :: stack,
      by simp, by simp, ?_, by simp, by simp⟩
    intro p hmem
    rcases List.mem_cons.mp hmem with h | h
    · exact Or.inl (by injection h)
    · exact Or.inr h
  | some m =>
    cases hpm : env.persistentMounted with
    | true =>
      refine ⟨[], CleanCb.removeFile (upgradeImgOf spec).file :: stack,
        by simp, by simp, ?_, by simp, by simp⟩
      intro p hmem
      rcases List.mem_cons.mp hmem with h | h
      · exact Or.inl (by injection h)
      · exact Or.inr h
    | false =>
      cases hpo : env.persistentMountOk with
      | true =>
        refine ⟨[UEvent.mountPersistent], CleanCb.unmountPersistent ::
          CleanCb.removeFile (upgradeImgOf spec).file :: stack,
          by simp, by simp, ?_, by simp, by simp⟩
        intro p hmem
        rcases List.mem_cons.mp hmem with h | h
        · cases h
        · rcases List.mem_cons.mp h with h2 | h2
          · exact Or.inl (by injection h2)
          · exact Or.inr h2
      | false =>
        refine ⟨[UEvent.mountPersistent],
          CleanCb.removeFile (upgradeImgOf spec).file :: stack,
          by simp, by simp, ?_, by simp, by simp⟩
        intro p hmem
        rcases List.mem_cons.mp hmem with h | h
        · exact Or.inl (by injection h)
        · exact Or.inr h

theorem upgradeRun_cases (env : UEnv) (spec : USpec) (fs0 : FileMap) :
    ((upgradeRun env spec fs0).err ≠ none ∧
     (upgradeRun env spec fs0).fs = fs0 ∧
     UEvent.mvFinal ∉ (upgradeRun env spec fs0).trace) ∨
    (∃ pre stack2,
      (upgradeRun env spec fs0).trace =
        pre ++ (corePhase env spec stack2 fs0).trace ∧
      UEvent.mvFinal ∉ pre ∧
      (∀ p, CleanCb.removeFile p ∈ stack2 → p = (upgradeImgOf spec).file) ∧
      (upgradeRun env spec fs0).err = (corePhase env spec stack2 fs0).err ∧
      (upgradeRun env spec fs0).fs = (corePhase env spec stack2 fs0).fs) := by
  unfold upgradeRun
  cases hm : mountPartMntOf spec with
  | none => exact Or.inl ⟨by simp, rfl, by simp⟩
  | some m =>
    by_cases hm0 : m = ""
    · exact Or.inl ⟨by simp [hm0], by simp [hm0], by simp [hm0]⟩
    · cases hmt : env.partMounted with
      | true =>
        cases hre : env.remountOk with
        | false => exact Or.inl ⟨by simp [hm0], by simp [hm0], by simp [hm0]⟩
        | true =>
          obtain ⟨pre, stack2, htr, hpre, hst, herr, hfs⟩ :=
            setupPersistent_cases env spec [] fs0
          refine Or.inr ⟨UEvent.mountPart ["remount", "rw"] :: pre, stack2,
            ?_, ?_, ?_, ?_, ?_⟩
          · simp [hm0, htr]
          · simp [hpre]
          · intro p hp
            rcases hst p hp with h | h
            · exact h
            · cases h
          · simp [hm0, herr]
          · simp [hm0, hfs]
      | false =>
        cases hre : env.mountOk with
        | false => exact Or.inl ⟨by simp [hm0], by simp [hm0], by simp [hm0]⟩
        | true =>
          obtain ⟨pre, stack2, htr, hpre, hst, herr, hfs⟩ :=
            setupPersistent_cases env spec [CleanCb.unmountPart] fs0
          refine Or.inr ⟨UEvent.mountPart ["rw"] :: pre, stack2,
            ?_, ?_, ?_, ?_, ?_⟩
          · simp [hm0, htr]
          · simp [hpre]
          · intro p hp
            rcases hst p hp with h | h
            · exact h
            · simp at h
          · simp [hm0, herr]
          · simp [hm0, hfs]

/-- C1: the upgrade run renames the transition file over the live image only
after the new content has been fully deployed and all hooks (before-upgrade,
after-upgrade-chroot, after-upgrade) have succeeded — with the deployment
preceding the rename in the trace — and, for a non-recovery upgrade, only
after the current active image has been moved to the passive slot; whenever
any hook or the deployment fails, the run returns an error and the
pre-upgrade live image file is left byte-identical under its original
name. -/
theorem c1_upgrade_promotes_only_after_success (env : UEnv) (spec : USpec)
    (fs0 : FileMap)
    (himg : (upgradeImgOf spec).file ≠ finalImageFileOf spec) :
    (UEvent.mvFinal ∈ (upgradeRun env spec fs0).trace →
      env.beforeHookOk = true ∧ env.deployOk = true ∧
      env.afterChrootHookOk = true ∧ env.afterHookOk = true ∧
      [UEvent.deploy, UEvent.mvFinal].Sublist (upgradeRun env spec fs0).trace ∧
      (spec.recoveryUpgrade = false →
        [UEvent.mvBackup, UEvent.mvFinal].Sublist
          (upgradeRun env spec fs0).trace)) ∧
    ((env.beforeHookOk = false ∨ env.deployOk = false ∨
      env.afterChrootHookOk = false ∨ env.afterHookOk = false) →
      (upgradeRun env spec fs0).err ≠ none ∧
      fmGet (upgradeRun env spec fs0).fs (finalImageFileOf spec) =
        fmGet fs0 (finalImageFileOf spec)) := by
  rcases upgradeRun_cases env spec fs0 with
    ⟨herr, hfs, hnot⟩ | ⟨pre, stack2, htr, hpre, hst, herr, hfs⟩
  · constructor
    · intro h
      exact absurd h hnot
    · intro _
      exact ⟨herr, by rw [hfs]⟩
  · have hstack2 : ∀ p, CleanCb.removeFile p ∈ stack2 →
        p ≠ finalImageFileOf spec := by
      intro p hp
      rw [hst p hp]
      exact himg
    constructor
    · intro h
      rw [htr] at h
      have hcore : UEvent.mvFinal ∈ (corePhase env spec stack2 fs0).trace := by
        rcases List.mem_append.mp h with h2 | h2
        · exact absurd h2 hpre
        · exact h2
      obtain ⟨h1, h2, h3, h4⟩ :=
        corePhase_flags_of_mvFinal env spec stack2 fs0 hcore
      refine ⟨h1, h2, h3, h4, ?_, ?_⟩
      · rw [htr]
        exact (corePhase_deploy_pair env spec stack2 fs0 hcore).trans
          (List.sublist_append_right pre _)
      · intro hrec
        rw [htr]
        exact (corePhase_backup_pair env spec stack2 fs0 hrec hcore).trans
          (List.sublist_append_right pre _)
    · intro hfail
      obtain ⟨h1, h2⟩ := corePhase_fail_preserved env spec stack2 fs0
        (finalImageFileOf spec) himg hstack2 hfail
      refine ⟨by rw [herr]; exact h1, ?_⟩
      rw [hfs]
      exact h2

/-- A concrete non-recovery upgrade spec used by the C1 witness: the
transition image lives next to the active image on the state partition. -/
def witnessSpec : USpec :=
  { recoveryUpgrade := false,
    recoveryMnt := some "/run/initramfs/mnt",
    stateMnt := some "/run/initramfs/state",
    persistentMnt := none,
    recoveryImg :=
      { file := "/run/initramfs/mnt/cOS/transition.img", label := "COS_SYSTEM",
        size := 3072, fs := "ext2", mountPoint := "/run/upgrade", loopDevice := "" },
    activeImg :=
      { file := "/run/initramfs/state/cOS/transition.img", label := "COS_ACTIVE",
        size := 3072, fs := "ext2", mountPoint := "/run/upgrade", loopDevice := "" },
    passiveLabel := "COS_PASSIVE" }

/-- A concrete environment for the C1 witness in which the before-upgrade
hook fails while everything else would succeed. -/
def witnessEnv : UEnv :=
  { partMounted := true, remountOk := true, mountOk := true,
    persistentMounted := false, persistentMountOk := true,
    beforeHookOk := false, deployOk := true, deployContent := 42,
    afterChrootHookOk := true, grubEntry := some "Elemental",
    setGrubOk := true, afterHookOk := true, unmountImgOk := true,
    mvBackupOk := true, tune2fsOk := true, mvFinalOk := true,
    cUnmountPartOk := true, cRemoveOk := true, cUnmountPersistentOk := true,
    cUnmountImgOk := true, reboot := false, powerOff := false }

/-- Witness for C1: with a failing before-upgrade hook, the run errors and
the live active image content is untouched. -/
theorem c1_upgrade_promotes_only_after_success_witness :
    (upgradeRun witnessEnv witnessSpec
      [("/run/initramfs/state/cOS/active.img", 7)]).err ≠ none ∧
    fmGet (upgradeRun witnessEnv witnessSpec
        [("/run/initramfs/state/cOS/active.img", 7)]).fs
        (finalImageFileOf witnessSpec) =
      fmGet [("/run/initramfs/state/cOS/active.img", 7)]
        (finalImageFileOf witnessSpec) :=
  (c1_upgrade_promotes_only_after_success witnessEnv witnessSpec
    [("/run/initramfs/state/cOS/active.img", 7)] (by decide)).2 (Or.inl rfl)

end Upgrade
